import Mathlib

/-
Verification of the congestion feedback core of the tm2py transit assignment
component (src/tm2py/components/network/transit/transit_assign.py).

The numeric functions are embedded over the rationals; the power-law exponents
of the crowding weight configurations are modelled as natural numbers.  Lines
and segments carry exactly the attributes the embedded functions read.
-/

/-- Crowding weight configuration (CcrWeightsConfig): minimum/maximum seated and
standing cost multipliers together with the power-law exponents used by the
capacitated (CCR) crowding cost function. -/
structure CcrWeightsConfig where
  min_seat : ℚ
  max_seat : ℚ
  power_seat : ℕ
  min_stand : ℚ
  max_stand : ℚ
  power_stand : ℕ
  deriving DecidableEq

/-- Congestion weight configuration (CongestedWeightsConfig), same shape as the
CCR crowding weights, used by the congested (non-CCR) assignment variant. -/
structure CongestedWeightsConfig where
  min_seat : ℚ
  max_seat : ℚ
  power_seat : ℕ
  min_stand : ℚ
  max_stand : ℚ
  power_stand : ℕ
  deriving DecidableEq

/-- Extra-added-wait-time weight configuration (EawtWeightsConfig). -/
structure EawtWeightsConfig where
  constant : ℚ
  weight_inverse_headway : ℚ
  vcr : ℚ
  exit_proportion : ℚ
  deriving DecidableEq

/-- Transit vehicle attributes read by the cost functions. -/
structure TransitVehicle where
  seated_capacity : ℚ
  total_capacity : ℚ
  deriving DecidableEq

/-- One transit segment snapshot: assigned volume, boardings, and the previous
iteration's perceived headway attribute @phdwy. -/
structure TransitSegment where
  transit_volume : ℚ
  transit_boardings : ℚ
  phdwy : ℚ
  deriving DecidableEq

instance : Inhabited TransitSegment := ⟨⟨0, 0, 0⟩⟩

/-- A transit line: vehicle, nominal headway, mode identifier, fare source mode
tag (the #src_mode attribute) and its ordered segments (hidden segment
included, matching segments(True) in the source). -/
structure TransitLine where
  vehicle : TransitVehicle
  headway : ℚ
  mode : String
  src_mode : String
  segments : List TransitSegment
  deriving DecidableEq

/-- Capacity for a whole time period (function time_period_capacity). -/
def time_period_capacity (vehicle_capacity headway time_period_duration : ℚ) : ℚ :=
  vehicle_capacity * time_period_duration * 60 / headway

/-- Seated passengers on a segment (line 98 / 172 of the source):
seated_pax = min(transit_volume, seated_capacity). -/
def seated_pax (transit_volume seated_capacity : ℚ) : ℚ :=
  min transit_volume seated_capacity

/-- Standing passengers on a segment (line 99 / 173 of the source):
standing_pax = max(transit_volume - seated_pax, 0). -/
def standing_pax (transit_volume seated_capacity : ℚ) : ℚ :=
  max (transit_volume - seated_pax transit_volume seated_capacity) 0

/-- The seated/standing blended crowding cost of the capacitated (CCR) variant
(lines 101-111 of the source): power-law interpolated seated and standing
costs, blended over the passenger split and divided by transit_volume + 0.01. -/
def crowded_cost (weights : CcrWeightsConfig)
    (transit_volume capacity seated_capacity : ℚ) : ℚ :=
  let seated := seated_pax transit_volume seated_capacity
  let standing := standing_pax transit_volume seated_capacity
  let seated_cost := weights.min_seat +
    (weights.max_seat - weights.min_seat) * (transit_volume / capacity) ^ weights.power_seat
  let standing_cost := weights.min_stand +
    (weights.max_stand - weights.min_stand) * (transit_volume / capacity) ^ weights.power_stand
  (seated_cost * seated + standing_cost * standing) / (transit_volume + 0.01)

/-- Final clipping of the capacitated crowding cost (line 113):
normalized_crowded_cost = max(crowded_cost - 1, 0). -/
def normalized_crowded_cost (crowded : ℚ) : ℚ :=
  max (crowded - 1) 0

/-- Final clipping of the congested cost (line 187):
congestion = max(crowded_cost, 1) - 1.0. -/
def congestion_clip (crowded : ℚ) : ℚ :=
  max crowded 1 - 1.0

/-- The CCR segment cost function calc_segment_cost generated by
func_returns_crowded_segment_cost (lines 59-115 of the source). -/
def calc_segment_cost_crowded (time_period_duration : ℚ) (weights : CcrWeightsConfig)
    (transit_volume capacity : ℚ) (line : TransitLine) : ℚ :=
  if transit_volume = 0 then 0
  else
    let seated_capacity :=
      line.vehicle.seated_capacity * time_period_duration * 60 / line.headway
    normalized_crowded_cost (crowded_cost weights transit_volume capacity seated_capacity)

/-- The seated/standing blended cost of the congested variant (lines 175-185):
identical to the CCR blend except the divisor is transit_volume with no
epsilon. -/
def congested_crowded_cost (weights : CongestedWeightsConfig)
    (transit_volume capacity seated_capacity : ℚ) : ℚ :=
  let seated := seated_pax transit_volume seated_capacity
  let standing := standing_pax transit_volume seated_capacity
  let seated_cost := weights.min_seat +
    (weights.max_seat - weights.min_seat) * (transit_volume / capacity) ^ weights.power_seat
  let standing_cost := weights.min_stand +
    (weights.max_stand - weights.min_stand) * (transit_volume / capacity) ^ weights.power_stand
  (seated_cost * seated + standing_cost * standing) / transit_volume

/-- The congested segment cost function calc_segment_cost generated by
func_returns_segment_congestion (lines 133-189 of the source). -/
def calc_segment_cost_congested (time_period_duration : ℚ) (weights : CongestedWeightsConfig)
    (use_fares : Bool) (transit_volume capacity : ℚ) (line : TransitLine) : ℚ :=
  if transit_volume ≤ 0 then 0
  else
    let mode_char := if use_fares then line.src_mode else line.mode
    if mode_char = "p" then 0.25 * (transit_volume / capacity) ^ 8
    else
      let seated_capacity :=
        line.vehicle.seated_capacity * time_period_duration * 60 / line.headway
      congestion_clip (congested_crowded_cost weights transit_volume capacity seated_capacity)

/-- Total alightings of a line (calc_total_offs, lines 255-267): sum of the
boardings of every segment, replaced by the sentinel 9999 when below 0.001. -/
def calc_total_offs (line : TransitLine) : ℚ :=
  let offs := line.segments.map fun seg => seg.transit_boardings
  let total_offs := offs.sum
  if total_offs ≥ 0.001 then total_offs else 9999

/-- The contribution of one adjacent segment pair to the cumulative alightings
(the body of the comprehension in calc_offs_thru_segment, line 284). -/
def segment_off (prev_seg this_seg : TransitSegment) : ℚ :=
  prev_seg.transit_volume - this_seg.transit_volume + this_seg.transit_boardings

/-- Cumulative alightings through the segment at position number of the line
(calc_offs_thru_segment, lines 270-290): a pairwise sum over the segments up to
and including that position. -/
def calc_offs_thru_segment (line : TransitLine) (number : ℕ) : ℚ :=
  let segments_thru_this_segment := line.segments.take (number + 1)
  let offs_thru_this_seg :=
    (segments_thru_this_segment.dropLast.zip segments_thru_this_segment.tail).map
      fun p => segment_off p.1 p.2
  offs_thru_this_seg.sum

/-- Extra added wait time for the segment at position number of the line
(calc_extra_wait_time, lines 293-340).  mode_config maps a mode identifier to
its eawt_factor. -/
def calc_extra_wait_time (line : TransitLine) (number : ℕ) (segment_capacity : ℚ)
    (eawt_weights : EawtWeightsConfig) (mode_config : String → ℚ)
    (use_fares : Bool) : ℚ :=
  let seg := line.segments.getD number default
  let transit_volume := seg.transit_volume
  let headway := if line.headway ≥ 0.1 then line.headway else 9999
  let total_offs := calc_total_offs line
  let offs_thru_segment := calc_offs_thru_segment line number
  let eawt := eawt_weights.constant
    + eawt_weights.weight_inverse_headway * (1 / headway)
    + eawt_weights.vcr * (transit_volume / segment_capacity)
    + eawt_weights.exit_proportion * (offs_thru_segment / total_offs)
  let mode_key := if use_fares then line.src_mode else line.mode
  let eawt_factor := if mode_key = "" then 1 else mode_config mode_key
  eawt * eawt_factor

/-- Adjusted perceived headway of a segment (calc_adjusted_headway, lines
343-375): growth-limited update of @phdwy, capped at 999.98 and then floored at
the line's nominal headway. -/
def calc_adjusted_headway (line : TransitLine) (segment : TransitSegment)
    (segment_capacity : ℚ) : ℚ :=
  let max_headway : ℚ := 999.98
  let transit_volume := segment.transit_volume
  let transit_boardings := segment.transit_boardings
  let previous_headway := segment.phdwy
  let current_headway := line.headway
  let available_capacity := max (segment_capacity - transit_volume + transit_boardings) 0
  let adjusted_headway := min max_headway
    (previous_headway * min ((transit_boardings + 1) / (available_capacity + 1)) 1.5)
  max current_headway adjusted_headway

/-- One transition rule of a journey level: a mode character and the index of
the next journey level. -/
structure TransitionRule where
  mode : String
  next_journey_level : ℕ
  deriving DecidableEq

/-- The waiting_time override attached to in-transit journey levels. -/
structure WaitingTimeSpec where
  headway_fraction : String
  effective_headways : String
  spread_factor : ℚ
  perception_factor : String
  deriving DecidableEq

/-- The boarding_time override attached to in-transit journey levels. -/
structure BoardingTimeSpec where
  on_lines_penalty : String
  on_lines_perception_factor : ℚ
  at_nodes_penalty : String
  at_nodes_perception_factor : ℚ
  deriving DecidableEq

/-- The boarding_cost entry of a journey level (on_segments penalty attribute
and perception factor). -/
structure BoardingCostSpec where
  on_segments_penalty : String
  on_segments_perception_factor : ℚ
  deriving DecidableEq

/-- One journey level of the per-class mode-sequence automaton. -/
structure JourneyLevel where
  description : String
  destinations_reachable : Bool
  transition_rules : List TransitionRule
  waiting_time : Option WaitingTimeSpec
  boarding_time : Option BoardingTimeSpec
  boarding_cost : Option BoardingCostSpec
  deriving DecidableEq

instance : Inhabited JourneyLevel := ⟨⟨"", false, [], none, none, none⟩⟩

/-- Retarget every rule of a list to a fixed next level (the
for level in ...: level["next_journey_level"] = t loops of the source). -/
def set_rule_targets (t : ℕ) (rules : List TransitionRule) : List TransitionRule :=
  rules.map fun r => { r with next_journey_level := t }

/-- Shift every rule target by one (the renumbering loop of the PNR_TRN_WLK
branch, lines 1204-1205). -/
def shift_rule_targets (rules : List TransitionRule) : List TransitionRule :=
  rules.map fun r => { r with next_journey_level := r.next_journey_level + 1 }

/-- The shared waiting_time override (lines 1283-1288). -/
def std_waiting_time (effective_headway_source : String) : WaitingTimeSpec :=
  ⟨"@hdw_fraction", effective_headway_source, 1, "@wait_pfactor"⟩

/-- The shared boarding_time override (lines 1289-1294). -/
def std_boarding_time : BoardingTimeSpec :=
  ⟨"@xboard_penalty", 1, "@xboard_nodepen", 1⟩

/-- Rewrite the boarding-cost perception factor of a level to the fare
perception 60/value_of_time when a boarding_cost is present (lines
1296-1300). -/
def apply_fare_perception (fare_perception : ℚ) (jl : JourneyLevel) : JourneyLevel :=
  match jl.boarding_cost with
  | some bc =>
      { jl with boarding_cost := some { bc with on_segments_perception_factor := fare_perception } }
  | none => jl

/-- Attach the shared waiting/boarding overrides to a level when the flag is
set, leave it unchanged otherwise. -/
def override_level (effective_headway_source : String) (b : Bool)
    (jl : JourneyLevel) : JourneyLevel :=
  if b then
    { jl with
        waiting_time := some (std_waiting_time effective_headway_source)
        boarding_time := some std_boarding_time }
  else jl

/-- Attach the shared overrides to the levels whose position lies in
[lo, hi) — the new_journey_levels[2:-1] (respectively [1:-2]) slice
assignments of the source. -/
def apply_inner_overrides (effective_headway_source : String) (lo hi : ℕ) :
    ℕ → List JourneyLevel → List JourneyLevel
  | _, [] => []
  | i, jl :: rest =>
      override_level effective_headway_source (decide (lo ≤ i) && decide (i < hi)) jl ::
        apply_inner_overrides effective_headway_source lo hi (i + 1) rest

/-- The in-loop transformation of the baseline levels in the PNR_TRN_WLK branch
(lines 1202-1213): shift every existing target by one and append the e/D/w/p
rules. -/
def pnr_shift_levels (n : ℕ) : ℕ → List JourneyLevel → List JourneyLevel
  | _, [] => []
  | i, jl :: rest =>
      { jl with transition_rules :=
          shift_rule_targets jl.transition_rules ++
            [⟨"e", i + 2⟩, ⟨"D", n + 2⟩, ⟨"w", i + 2⟩, ⟨"p", n + 2⟩] } ::
        pnr_shift_levels n (i + 1) rest

/-- Level 0 (drive access) of the PNR_TRN_WLK automaton (lines 1214-1225). -/
def pnr_drive_access_level (n : ℕ) (base0 : List TransitionRule) : JourneyLevel :=
  ⟨"drive access", false,
    set_rule_targets (n + 2) base0 ++
      [⟨"e", n + 2⟩, ⟨"D", 0⟩, ⟨"w", n + 2⟩, ⟨"p", 1⟩],
    none, none, none⟩

/-- Level 1 (pnr) of the PNR_TRN_WLK automaton (lines 1226-1237). -/
def pnr_pnr_level (n : ℕ) (base0 : List TransitionRule) : JourneyLevel :=
  ⟨"pnr", false,
    set_rule_targets 2 base0 ++
      [⟨"e", n + 2⟩, ⟨"D", n + 2⟩, ⟨"w", n + 2⟩, ⟨"p", 1⟩],
    none, none, none⟩

/-- The trailing prohibit level of the PNR_TRN_WLK automaton (lines
1238-1249). -/
def pnr_prohibit_level (n : ℕ) (base0 : List TransitionRule) : JourneyLevel :=
  ⟨"prohibit", false,
    set_rule_targets (n + 2) base0 ++
      [⟨"e", n + 2⟩, ⟨"D", n + 2⟩, ⟨"w", n + 2⟩, ⟨"p", n + 2⟩],
    none, none, none⟩

/-- The PNR_TRN_WLK branch of TransitAssignmentClass._journey_levels (lines
1199-1300): renumber the baseline levels, prepend drive-access and pnr levels,
append the prohibit level, then attach the overrides and the fare
perception. -/
def pnr_trn_wlk_journey_levels (fare_perception : ℚ) (effective_headway_source : String)
    (journey_levels : List JourneyLevel) : List JourneyLevel :=
  let n := journey_levels.length
  let base0 := (journey_levels.headD default).transition_rules
  let levels := pnr_drive_access_level n base0 :: pnr_pnr_level n base0 ::
    pnr_shift_levels n 0 journey_levels ++ [pnr_prohibit_level n base0]
  (apply_inner_overrides effective_headway_source 2 (levels.length - 1) 0 levels).map
    (apply_fare_perception fare_perception)

/-- The in-loop transformation of the baseline levels in the WLK_TRN_PNR branch
(lines 1305-1315): clear destinations_reachable and append the a/D/w/p rules
(no renumbering of existing targets). -/
def wlk_base_levels (n : ℕ) : ℕ → List JourneyLevel → List JourneyLevel
  | _, [] => []
  | i, jl :: rest =>
      { jl with
          destinations_reachable := false
          transition_rules := jl.transition_rules ++
            [⟨"a", n + 2⟩, ⟨"D", n + 2⟩, ⟨"w", i + 1⟩, ⟨"p", n + 1⟩] } ::
        wlk_base_levels n (i + 1) rest

/-- Level 0 (walk access) of the WLK_TRN_PNR automaton (lines 1316-1327). -/
def wlk_walk_access_level (n : ℕ) (base0 : List TransitionRule) : JourneyLevel :=
  ⟨"walk access", true,
    set_rule_targets 1 base0 ++
      [⟨"a", 0⟩, ⟨"D", n + 2⟩, ⟨"w", n + 2⟩, ⟨"p", n + 2⟩],
    none, none, none⟩

/-- The drive-home level of the WLK_TRN_PNR automaton (lines 1328-1339). -/
def wlk_drive_home_level (n : ℕ) (base0 : List TransitionRule) : JourneyLevel :=
  ⟨"drive home", true,
    set_rule_targets (n + 2) base0 ++
      [⟨"a", n + 2⟩, ⟨"D", n + 1⟩, ⟨"w", n + 2⟩, ⟨"p", n + 2⟩],
    none, none, none⟩

/-- The trailing prohibit level of the WLK_TRN_PNR automaton (lines
1340-1351). -/
def wlk_prohibit_level (n : ℕ) (base0 : List TransitionRule) : JourneyLevel :=
  ⟨"prohibit", false,
    set_rule_targets (n + 2) base0 ++
      [⟨"a", n + 2⟩, ⟨"D", n + 2⟩, ⟨"w", n + 2⟩, ⟨"p", n + 2⟩],
    none, none, none⟩

/-- The WLK_TRN_PNR branch of TransitAssignmentClass._journey_levels (lines
1302-1399). -/
def wlk_trn_pnr_journey_levels (fare_perception : ℚ) (effective_headway_source : String)
    (journey_levels : List JourneyLevel) : List JourneyLevel :=
  let n := journey_levels.length
  let base0 := (journey_levels.headD default).transition_rules
  let levels := wlk_walk_access_level n base0 ::
    wlk_base_levels n 0 journey_levels ++
      [wlk_drive_home_level n base0, wlk_prohibit_level n base0]
  (apply_inner_overrides effective_headway_source 1 (levels.length - 2) 0 levels).map
    (apply_fare_perception fare_perception)

/-- A concrete two-level walk-access baseline automaton, as loaded from the
ALLPEN journey levels template. -/
def base2 : List JourneyLevel :=
  [⟨"level 1", true, [⟨"b", 0⟩, ⟨"f", 1⟩], none, none, none⟩,
   ⟨"level 2", true, [⟨"b", 1⟩, ⟨"f", 1⟩], none, none, none⟩]

/-- Adversarial crowding weights: the seated multiplier exceeds the standing
multiplier. -/
def w_cex : CcrWeightsConfig := ⟨10, 10, 1, 0, 0, 1⟩

/-- A line whose derived seated capacity for a 1-minute period is 10. -/
def line_cex : TransitLine := ⟨⟨10, 20⟩, 60, "b", "", []⟩

/-- Realistic crowding weights (ordered multipliers). -/
def w_ok : CcrWeightsConfig := ⟨1, 1.4, 2, 1.4, 1.6, 3⟩

/-- A standard line for witnesses: 50 seats, 100 total, headway 10. -/
def line_ok : TransitLine := ⟨⟨50, 100⟩, 10, "b", "", []⟩

/-- Realistic congested weights (ordered multipliers). -/
def cw_ok : CongestedWeightsConfig := ⟨1, 1.4, 2, 1.4, 1.6, 3⟩

/-- A line whose mode identifier is the special character p. -/
def line_p : TransitLine := ⟨⟨50, 100⟩, 10, "p", "p", []⟩

/-- A line with a degenerate nominal headway of 1000 minutes (above the 999.98
cap). -/
def line_hw1000 : TransitLine := ⟨⟨50, 100⟩, 1000, "b", "", []⟩

/-- A segment with zero volume and boardings and previous perceived headway
10. -/
def seg_c2 : TransitSegment := ⟨0, 0, 10⟩

/-- A segment for the adjusted-headway witness. -/
def seg_c2w : TransitSegment := ⟨20, 5, 12⟩

/-- A line whose every segment has zero boardings. -/
def line_zero_boardings : TransitLine :=
  ⟨⟨50, 100⟩, 10, "b", "", [⟨0, 0, 10⟩, ⟨0, 0, 10⟩, ⟨0, 0, 10⟩]⟩

/-- A three-segment line with flow-conserving volumes/boardings that ends
empty. -/
def line_c7w : TransitLine :=
  ⟨⟨50, 100⟩, 10, "b", "", [⟨2, 2, 0⟩, ⟨1.5, 0.5, 0⟩, ⟨0, 0, 0⟩]⟩

/-- The alightings of line_c7w making it flow-conserving. -/
def alights_c7w : List ℚ := [0, 1, 1.5]

/-- A one-segment flow-conserving line that does not end empty. -/
def line_c7cex : TransitLine := ⟨⟨50, 100⟩, 10, "b", "", [⟨1, 1, 0⟩]⟩

/-- The alightings of line_c7cex making it flow-conserving. -/
def alights_c7cex : List ℚ := [0]

lemma clip_agree_aux (x : ℚ) : normalized_crowded_cost x = congestion_clip x := by
  simp only [normalized_crowded_cost, congestion_clip]
  rcases le_total x 1 with h | h
  · rw [max_eq_right (by linarith : x - 1 ≤ 0), max_eq_right h]; norm_num
  · rw [max_eq_left (by linarith : (0:ℚ) ≤ x - 1), max_eq_left h]; norm_num

/-- Claim C4 (amended): the capacitated clipping max(x - 1, 0) and the congested
clipping max(x, 1) - 1 agree for every blended cost value x, negative values
included; the two clipping orders are algebraically identical. -/
theorem clip_orders_agree (crowded : ℚ) :
    normalized_crowded_cost crowded = congestion_clip crowded :=
  clip_agree_aux crowded

/-- Claim C4 counterexample: there is no blended cost value x < 0 at which the
two clipping orders produce different results. -/
theorem clip_orders_no_negative_difference :
    ¬ ∃ crowded : ℚ, crowded < 0 ∧ normalized_crowded_cost crowded ≠ congestion_clip crowded := by
  rintro ⟨x, _, hne⟩
  exact hne (clip_agree_aux x)

/-- Claim C5: for transit_volume ≥ 0 and seated_capacity ≥ 0 the seated and
standing passenger split satisfies seated_pax + standing_pax = transit_volume
exactly. -/
theorem seated_standing_split (transit_volume seated_capacity : ℚ)
    (hv : 0 ≤ transit_volume) (hc : 0 ≤ seated_capacity) :
    seated_pax transit_volume seated_capacity + standing_pax transit_volume seated_capacity
      = transit_volume := by
  simp only [seated_pax, standing_pax]
  rcases le_total transit_volume seated_capacity with h | h
  · rw [min_eq_left h]; simp
  · rw [min_eq_right h, max_eq_left (by linarith)]; ring

/-- Witness for claim C5 at transit_volume 5, seated_capacity 3. -/
theorem seated_standing_split_witness :
    seated_pax 5 3 + standing_pax 5 3 = 5 :=
  seated_standing_split 5 3 (by norm_num) (by norm_num)

/-- Claim C2 (amended): the adjusted headway is always at least the line's
nominal headway; it is at most 999.98 whenever the nominal headway itself is at
most 999.98 (the floor at the nominal headway is applied after the 999.98 cap,
so a nominal headway above the cap passes through). -/
theorem adjusted_headway_bounds (line : TransitLine) (segment : TransitSegment)
    (segment_capacity : ℚ) :
    line.headway ≤ calc_adjusted_headway line segment segment_capacity ∧
      (line.headway ≤ 999.98 →
        calc_adjusted_headway line segment segment_capacity ≤ 999.98) := by
  constructor
  · exact le_max_left _ _
  · intro h
    exact max_le h (min_le_left _ _)

/-- Witness for claim C2 on a line with nominal headway 10. -/
theorem adjusted_headway_bounds_witness :
    line_ok.headway ≤ calc_adjusted_headway line_ok seg_c2w 100 ∧
      calc_adjusted_headway line_ok seg_c2w 100 ≤ 999.98 :=
  ⟨(adjusted_headway_bounds line_ok seg_c2w 100).1,
   (adjusted_headway_bounds line_ok seg_c2w 100).2 (by norm_num [line_ok])⟩

/-- Claim C2 counterexample: on a line with nominal headway 1000 the adjusted
headway equals 1000, exceeding the 999.98 cap, so the upper bound of the claim
fails for some inputs. -/
theorem adjusted_headway_exceeds_cap :
    999.98 < calc_adjusted_headway line_hw1000 seg_c2 100 := by
  norm_num [calc_adjusted_headway, line_hw1000, seg_c2, min_def, max_def]

/-- Claim C6: for a line whose boardings sum to less than the 0.001 threshold,
calc_total_offs returns the sentinel 9999 rather than the sum, and in
particular is nonzero, so the exit-proportion ratio in calc_extra_wait_time
never divides by zero. -/
theorem total_offs_sentinel (line : TransitLine)
    (h : (line.segments.map fun seg => seg.transit_boardings).sum < 0.001) :
    calc_total_offs line = 9999 ∧ calc_total_offs line ≠ 0 := by
  have hne := not_le.mpr h
  refine ⟨?_, ?_⟩
  · simp only [calc_total_offs]
    rw [if_neg hne]
  · simp only [calc_total_offs]
    rw [if_neg hne]
    norm_num

/-- Witness for claim C6 on a line whose every segment has zero boardings. -/
theorem total_offs_sentinel_witness :
    calc_total_offs line_zero_boardings = 9999 ∧ calc_total_offs line_zero_boardings ≠ 0 :=
  total_offs_sentinel line_zero_boardings (by norm_num [line_zero_boardings])

/-- Claim C10: at the first segment of any line (position 0) the cumulative
alightings are the empty pairwise sum 0, and therefore the exit-proportion term
of the extra added wait time vanishes there regardless of volumes or
boardings. -/
theorem offs_thru_first_segment (line : TransitLine) (eawt_weights : EawtWeightsConfig) :
    calc_offs_thru_segment line 0 = 0 ∧
      eawt_weights.exit_proportion * (calc_offs_thru_segment line 0 / calc_total_offs line) = 0 := by
  have h : calc_offs_thru_segment line 0 = 0 := by
    simp only [calc_offs_thru_segment]
    cases line.segments with
    | nil => simp
    | cons a t => simp
  exact ⟨h, by rw [h]; simp⟩

/-- Claim C8: the congested cost function returns 0 for every transit volume
at most 0, and on a line whose resolved mode character is p it returns the
special power-law penalty 0.25 * (volume / capacity) ^ 8 for every positive
volume. -/
theorem congested_cost_cases (time_period_duration : ℚ) (weights : CongestedWeightsConfig)
    (use_fares : Bool) (capacity : ℚ) (line : TransitLine) :
    (∀ transit_volume : ℚ, transit_volume ≤ 0 →
        calc_segment_cost_congested time_period_duration weights use_fares
          transit_volume capacity line = 0) ∧
      (∀ transit_volume : ℚ, 0 < transit_volume →
        (if use_fares then line.src_mode else line.mode) = "p" →
        calc_segment_cost_congested time_period_duration weights use_fares
          transit_volume capacity line = 0.25 * (transit_volume / capacity) ^ 8) := by
  constructor
  · intro v hv
    simp only [calc_segment_cost_congested]
    rw [if_pos hv]
  · intro v hv hm
    simp only [calc_segment_cost_congested]
    rw [if_neg (not_le.mpr hv), if_pos hm]

/-- Witness for claim C8 on the p-mode line, at volumes -1 and 2. -/
theorem congested_cost_cases_witness :
    calc_segment_cost_congested 60 cw_ok false (-1) 100 line_p = 0 ∧
      calc_segment_cost_congested 60 cw_ok false 2 100 line_p
        = 0.25 * ((2:ℚ) / 100) ^ 8 :=
  ⟨(congested_cost_cases 60 cw_ok false 100 line_p).1 (-1) (by norm_num),
   (congested_cost_cases 60 cw_ok false 100 line_p).2 2 (by norm_num) rfl⟩

lemma pairs_sum_telescope :
    ∀ (t : List TransitSegment) (a : TransitSegment),
      (((a :: t).dropLast.zip (a :: t).tail).map fun p => segment_off p.1 p.2).sum
        = a.transit_volume - ((a :: t).getLastD default).transit_volume
          + (t.map fun s => s.transit_boardings).sum := by
  intro t
  induction t with
  | nil => intro a; simp [segment_off]
  | cons b t ih =>
      intro a
      have hstep : ((a :: b :: t).dropLast.zip (a :: b :: t).tail) =
          (a, b) :: ((b :: t).dropLast.zip (b :: t).tail) := by
        simp [List.dropLast]
      have hlast : ((a :: b :: t).getLastD default) = ((b :: t).getLastD default) := by
        simp
      rw [hstep]
      simp only [List.map_cons, List.sum_cons]
      rw [ih b, hlast]
      simp only [List.map_cons, List.sum_cons, segment_off]
      ring

/-- Claim C7 (amended): on a line whose volumes, boardings and alightings are
flow-conserving, whose first segment has no alightings, whose final (hidden)
segment carries zero volume, and whose total boardings reach the 0.001
threshold, the cumulative alightings through the last segment equal
calc_total_offs exactly. -/
theorem offs_consistency (line : TransitLine) (alights : List ℚ)
    (hne : line.segments ≠ [])
    (hlen : alights.length = line.segments.length)
    (hcons : ∀ i, i < line.segments.length →
      (line.segments.getD i default).transit_volume =
        (if i = 0 then 0 else (line.segments.getD (i - 1) default).transit_volume)
          + (line.segments.getD i default).transit_boardings - alights.getD i 0)
    (ha0 : alights.getD 0 0 = 0)
    (hlast : (line.segments.getLastD default).transit_volume = 0)
    (hsum : 0.001 ≤ (line.segments.map fun s => s.transit_boardings).sum) :
    calc_offs_thru_segment line (line.segments.length - 1) = calc_total_offs line := by
  rcases hs : line.segments with _ | ⟨a, t⟩
  · exact absurd hs hne
  · have h0 : a.transit_volume = a.transit_boardings := by
      have hc := hcons 0 (by rw [hs]; simp)
      rw [hs, ha0] at hc
      simpa using hc
    rw [hs] at hlast hsum
    simp only [calc_offs_thru_segment, calc_total_offs, hs]
    have hlen1 : (a :: t).length - 1 + 1 = (a :: t).length := by simp
    rw [hlen1, List.take_length, pairs_sum_telescope t a, if_pos hsum, hlast, h0]
    simp only [List.map_cons, List.sum_cons]
    ring

/-- Witness for claim C7 on a conserving three-segment line ending empty. -/
theorem offs_consistency_witness :
    calc_offs_thru_segment line_c7w (line_c7w.segments.length - 1)
      = calc_total_offs line_c7w :=
  offs_consistency line_c7w alights_c7w (by simp [line_c7w]) rfl
    (by
      intro i hi
      simp only [line_c7w, List.length_cons, List.length_nil] at hi
      interval_cases i <;>
        norm_num [line_c7w, alights_c7w, List.getD_cons_zero, List.getD_cons_succ])
    (by norm_num [alights_c7w, List.getD_cons_zero])
    (by norm_num [line_c7w])
    (by norm_num [line_c7w])

/-- Claim C7 counterexample: a one-segment flow-conserving line (volume 1,
boardings 1, no alightings) does not end empty; its cumulative alightings
through the last segment are 0 while calc_total_offs is 1, so conservation
alone does not imply the claimed equality. -/
theorem offs_consistency_counterexample :
    (∀ i, i < line_c7cex.segments.length →
      (line_c7cex.segments.getD i default).transit_volume =
        (if i = 0 then 0 else (line_c7cex.segments.getD (i - 1) default).transit_volume)
          + (line_c7cex.segments.getD i default).transit_boardings
          - alights_c7cex.getD i 0) ∧
      alights_c7cex.length = line_c7cex.segments.length ∧
      calc_offs_thru_segment line_c7cex (line_c7cex.segments.length - 1)
        ≠ calc_total_offs line_c7cex := by
  refine ⟨?_, rfl, ?_⟩
  · intro i hi
    simp only [line_c7cex, List.length_cons, List.length_nil] at hi
    interval_cases i <;>
      norm_num [line_c7cex, alights_c7cex, List.getD_cons_zero]
  · norm_num [calc_offs_thru_segment, calc_total_offs, line_c7cex]

lemma eps_pos {v : ℚ} (hv : 0 ≤ v) : 0 < v + 0.01 := by
  have h : (0:ℚ) < 0.01 := by norm_num
  linarith

lemma standing_eq (v sc : ℚ) : standing_pax v sc = max (v - sc) 0 := by
  simp only [standing_pax, seated_pax]
  rcases le_total v sc with h | h
  · rw [min_eq_left h, max_eq_right (by linarith : v - sc ≤ 0)]
    simp
  · rw [min_eq_right h]

lemma seated_eq_sub (v sc : ℚ) : seated_pax v sc = v - max (v - sc) 0 := by
  simp only [seated_pax]
  rcases le_total v sc with h | h
  · rw [min_eq_left h, max_eq_right (by linarith : v - sc ≤ 0)]; ring
  · rw [min_eq_right h, max_eq_left (by linarith : (0:ℚ) ≤ v - sc)]; ring

lemma frac_self_mono {v1 v2 : ℚ} (h0 : 0 ≤ v1) (h12 : v1 ≤ v2) :
    v1 / (v1 + 0.01) ≤ v2 / (v2 + 0.01) := by
  rw [div_le_div_iff (eps_pos h0) (eps_pos (h0.trans h12))]
  nlinarith

lemma stand_frac_mono {v1 v2 sc : ℚ} (h0 : 0 ≤ v1) (h12 : v1 ≤ v2) (hsc : 0 ≤ sc) :
    max (v1 - sc) 0 / (v1 + 0.01) ≤ max (v2 - sc) 0 / (v2 + 0.01) := by
  rw [div_le_div_iff (eps_pos h0) (eps_pos (h0.trans h12))]
  rcases le_total v1 sc with h | h
  · rw [max_eq_right (by linarith : v1 - sc ≤ 0), zero_mul]
    exact mul_nonneg (le_max_right _ _) (eps_pos h0).le
  · rw [max_eq_left (by linarith : (0:ℚ) ≤ v1 - sc),
        max_eq_left (by linarith : (0:ℚ) ≤ v2 - sc)]
    nlinarith

lemma ratio_pow_mono {v1 v2 c : ℚ} (p : ℕ) (h0 : 0 ≤ v1) (h12 : v1 ≤ v2) (hc : 0 < c) :
    (v1 / c) ^ p ≤ (v2 / c) ^ p :=
  pow_le_pow_left (div_nonneg h0 hc.le) ((div_le_div_right hc).mpr h12) p

lemma stand_pow_frac_mono {v1 v2 sc c : ℚ} (p : ℕ) (h0 : 0 ≤ v1) (h12 : v1 ≤ v2)
    (hsc : 0 ≤ sc) (hc : 0 < c) :
    (v1 / c) ^ p * (max (v1 - sc) 0 / (v1 + 0.01))
      ≤ (v2 / c) ^ p * (max (v2 - sc) 0 / (v2 + 0.01)) :=
  mul_le_mul (ratio_pow_mono p h0 h12 hc) (stand_frac_mono h0 h12 hsc)
    (div_nonneg (le_max_right _ _) (eps_pos h0).le)
    (pow_nonneg (div_nonneg (h0.trans h12) hc.le) p)

lemma seat_low_frac_mono {v1 v2 c : ℚ} (p : ℕ) (h0 : 0 ≤ v1) (h12 : v1 ≤ v2) (hc : 0 < c) :
    v1 * (v1 / c) ^ p / (v1 + 0.01) ≤ v2 * (v2 / c) ^ p / (v2 + 0.01) := by
  rw [mul_div_right_comm, mul_div_right_comm]
  exact mul_le_mul (frac_self_mono h0 h12) (ratio_pow_mono p h0 h12 hc)
    (pow_nonneg (div_nonneg h0 hc.le) p)
    (div_nonneg (h0.trans h12) (eps_pos (h0.trans h12)).le)

lemma seat_high_frac_mono {v1 v2 sc c : ℚ} (q : ℕ) (h0 : 0 ≤ v1) (h12 : v1 ≤ v2)
    (hsc : 0 ≤ sc) (hc : 0 < c) :
    sc * (v1 / c) ^ (q + 1) / (v1 + 0.01) ≤ sc * (v2 / c) ^ (q + 1) / (v2 + 0.01) := by
  rw [div_le_div_iff (eps_pos h0) (eps_pos (h0.trans h12))]
  have h2 : 0 ≤ v2 := h0.trans h12
  have key : (v1 / c) ^ (q + 1) * (v2 + 0.01) ≤ (v2 / c) ^ (q + 1) * (v1 + 0.01) := by
    have hq : (v1 / c) ^ q ≤ (v2 / c) ^ q := ratio_pow_mono q h0 h12 hc
    have e1 : (v1 / c) ^ (q + 1) * v2 ≤ (v2 / c) ^ (q + 1) * v1 := by
      have l1 : (v1 / c) ^ (q + 1) * v2 = (v1 / c) ^ q * (v1 * v2 / c) := by
        rw [pow_succ]; ring
      have l2 : (v2 / c) ^ (q + 1) * v1 = (v2 / c) ^ q * (v1 * v2 / c) := by
        rw [pow_succ]; ring
      rw [l1, l2]
      exact mul_le_mul_of_nonneg_right hq (div_nonneg (mul_nonneg h0 h2) hc.le)
    have e2 : (v1 / c) ^ (q + 1) * 0.01 ≤ (v2 / c) ^ (q + 1) * 0.01 :=
      mul_le_mul_of_nonneg_right (ratio_pow_mono (q + 1) h0 h12 hc) (by norm_num)
    nlinarith [e1, e2]
  calc sc * (v1 / c) ^ (q + 1) * (v2 + 0.01)
      = sc * ((v1 / c) ^ (q + 1) * (v2 + 0.01)) := by ring
    _ ≤ sc * ((v2 / c) ^ (q + 1) * (v1 + 0.01)) := mul_le_mul_of_nonneg_left key hsc
    _ = sc * (v2 / c) ^ (q + 1) * (v1 + 0.01) := by ring

lemma seat_frac_mono_succ {v1 v2 sc c : ℚ} (q : ℕ) (h0 : 0 ≤ v1) (h12 : v1 ≤ v2)
    (hsc : 0 ≤ sc) (hc : 0 < c) :
    seated_pax v1 sc * (v1 / c) ^ (q + 1) / (v1 + 0.01)
      ≤ seated_pax v2 sc * (v2 / c) ^ (q + 1) / (v2 + 0.01) := by
  simp only [seated_pax]
  rcases le_total v2 sc with h2 | h2
  · rw [min_eq_left (h12.trans h2), min_eq_left h2]
    exact seat_low_frac_mono (q + 1) h0 h12 hc
  · rcases le_total v1 sc with h1 | h1
    · rw [min_eq_left h1, min_eq_right h2]
      calc v1 * (v1 / c) ^ (q + 1) / (v1 + 0.01)
          ≤ sc * (sc / c) ^ (q + 1) / (sc + 0.01) := seat_low_frac_mono (q + 1) h0 h1 hc
        _ ≤ sc * (v2 / c) ^ (q + 1) / (v2 + 0.01) := seat_high_frac_mono q hsc h2 hsc hc
    · rw [min_eq_right h1, min_eq_right h2]
      exact seat_high_frac_mono q h0 h12 hsc hc

lemma crowded_cost_def (w : CcrWeightsConfig) (v c sc : ℚ) :
    crowded_cost w v c sc =
      ((w.min_seat + (w.max_seat - w.min_seat) * (v / c) ^ w.power_seat) * seated_pax v sc
        + (w.min_stand + (w.max_stand - w.min_stand) * (v / c) ^ w.power_stand)
          * standing_pax v sc) / (v + 0.01) := rfl

lemma crowded_cost_decomp_succ (w : CcrWeightsConfig) (v c sc : ℚ) (q : ℕ)
    (hq : w.power_seat = q + 1) :
    crowded_cost w v c sc =
      w.min_seat * (v / (v + 0.01))
        + (w.min_stand - w.min_seat) * (max (v - sc) 0 / (v + 0.01))
        + (w.max_seat - w.min_seat) * (seated_pax v sc * (v / c) ^ (q + 1) / (v + 0.01))
        + (w.max_stand - w.min_stand)
          * ((v / c) ^ w.power_stand * (max (v - sc) 0 / (v + 0.01))) := by
  rw [crowded_cost_def, hq, standing_eq, seated_eq_sub v sc]
  ring

lemma crowded_cost_decomp_zero (w : CcrWeightsConfig) (v c sc : ℚ)
    (hq : w.power_seat = 0) :
    crowded_cost w v c sc =
      w.max_seat * (v / (v + 0.01))
        + (w.min_stand - w.max_seat) * (max (v - sc) 0 / (v + 0.01))
        + (w.max_stand - w.min_stand)
          * ((v / c) ^ w.power_stand * (max (v - sc) 0 / (v + 0.01))) := by
  rw [crowded_cost_def, hq, pow_zero, standing_eq, seated_eq_sub v sc]
  ring

lemma crowded_cost_mono (w : CcrWeightsConfig) {v1 v2 c sc : ℚ}
    (hw0 : 0 ≤ w.min_seat) (hw1 : w.min_seat ≤ w.max_seat)
    (hw2 : w.max_seat ≤ w.min_stand) (hw3 : w.min_stand ≤ w.max_stand)
    (hc : 0 < c) (hsc : 0 ≤ sc) (h0 : 0 ≤ v1) (h12 : v1 ≤ v2) :
    crowded_cost w v1 c sc ≤ crowded_cost w v2 c sc := by
  have c2 : 0 ≤ w.min_stand - w.min_seat := by linarith
  have c3 : 0 ≤ w.max_seat - w.min_seat := by linarith
  have c4 : 0 ≤ w.max_stand - w.min_stand := by linarith
  rcases hq : w.power_seat with _ | q
  · rw [crowded_cost_decomp_zero w v1 c sc hq, crowded_cost_decomp_zero w v2 c sc hq]
    have c5 : 0 ≤ w.max_seat := by linarith
    have c6 : 0 ≤ w.min_stand - w.max_seat := by linarith
    exact add_le_add (add_le_add
        (mul_le_mul_of_nonneg_left (frac_self_mono h0 h12) c5)
        (mul_le_mul_of_nonneg_left (stand_frac_mono h0 h12 hsc) c6))
      (mul_le_mul_of_nonneg_left (stand_pow_frac_mono w.power_stand h0 h12 hsc hc) c4)
  · rw [crowded_cost_decomp_succ w v1 c sc q hq, crowded_cost_decomp_succ w v2 c sc q hq]
    exact add_le_add (add_le_add (add_le_add
        (mul_le_mul_of_nonneg_left (frac_self_mono h0 h12) hw0)
        (mul_le_mul_of_nonneg_left (stand_frac_mono h0 h12 hsc) c2))
        (mul_le_mul_of_nonneg_left (seat_frac_mono_succ q h0 h12 hsc hc) c3))
      (mul_le_mul_of_nonneg_left (stand_pow_frac_mono w.power_stand h0 h12 hsc hc) c4)

/-- Claim C1 (amended): the CCR crowding cost is non-negative for every volume,
capacity, weight configuration and line, and is exactly 0 at volume 0 — both
unconditionally; it is furthermore non-decreasing in the volume for fixed
capacity and line attributes provided the weight configuration is ordered
(0 ≤ min_seat ≤ max_seat ≤ min_stand ≤ max_stand, standing never cheaper than
seated at equal ratio), the capacity is positive and the line's derived seated
capacity is non-negative. -/
theorem crowded_cost_props (time_period_duration : ℚ) (weights : CcrWeightsConfig)
    (capacity : ℚ) (line : TransitLine) :
    (∀ transit_volume : ℚ,
        0 ≤ calc_segment_cost_crowded time_period_duration weights transit_volume capacity line) ∧
      calc_segment_cost_crowded time_period_duration weights 0 capacity line = 0 ∧
      (0 ≤ weights.min_seat → weights.min_seat ≤ weights.max_seat →
        weights.max_seat ≤ weights.min_stand → weights.min_stand ≤ weights.max_stand →
        0 < capacity →
        0 ≤ line.vehicle.seated_capacity * time_period_duration * 60 / line.headway →
        ∀ v1 v2 : ℚ, 0 ≤ v1 → v1 ≤ v2 →
        calc_segment_cost_crowded time_period_duration weights v1 capacity line
          ≤ calc_segment_cost_crowded time_period_duration weights v2 capacity line) := by
  have hnn : ∀ v : ℚ,
      0 ≤ calc_segment_cost_crowded time_period_duration weights v capacity line := by
    intro v
    simp only [calc_segment_cost_crowded, normalized_crowded_cost]
    split
    · exact le_refl 0
    · exact le_max_right _ _
  refine ⟨hnn, by simp [calc_segment_cost_crowded], ?_⟩
  intro hw0 hw1 hw2 hw3 hcap hsc v1 v2 h1 h12
  by_cases hz1 : v1 = 0
  · have hL : calc_segment_cost_crowded time_period_duration weights v1 capacity line = 0 := by
      rw [hz1]; simp [calc_segment_cost_crowded]
    rw [hL]
    exact hnn v2
  · have hz2 : v2 ≠ 0 := by
      intro h
      exact hz1 (le_antisymm (h ▸ h12) h1)
    simp only [calc_segment_cost_crowded, if_neg hz1, if_neg hz2, normalized_crowded_cost]
    exact max_le_max (sub_le_sub_right
      (crowded_cost_mono weights hw0 hw1 hw2 hw3 hcap hsc h1 h12) 1) le_rfl

/-- Witness for claim C1: the unconditional parts at the adversarial weights
w_cex, and the monotonicity part at the ordered weights w_ok on the standard
line. -/
theorem crowded_cost_props_witness :
    0 ≤ calc_segment_cost_crowded 1 w_cex 20 100 line_cex ∧
      calc_segment_cost_crowded 1 w_cex 0 100 line_cex = 0 ∧
      calc_segment_cost_crowded 60 w_ok 0 100 line_ok = 0 ∧
      calc_segment_cost_crowded 60 w_ok 40 100 line_ok
        ≤ calc_segment_cost_crowded 60 w_ok 120 100 line_ok :=
  ⟨(crowded_cost_props 1 w_cex 100 line_cex).1 20,
   (crowded_cost_props 1 w_cex 100 line_cex).2.1,
   (crowded_cost_props 60 w_ok 100 line_ok).2.1,
   (crowded_cost_props 60 w_ok 100 line_ok).2.2 (by norm_num [w_ok])
     (by norm_num [w_ok]) (by norm_num [w_ok]) (by norm_num [w_ok]) (by norm_num)
     (by norm_num [line_ok]) 40 120 (by norm_num) (by norm_num)⟩

/-- Claim C1 counterexample: with unordered weights (seated multiplier 10,
standing multiplier 0) on a line with derived seated capacity 10, the crowding
cost strictly decreases from volume 10 to volume 20 at capacity 100, so the
cost is not non-decreasing in the volume for arbitrary weight
configurations. -/
theorem crowded_cost_not_monotone :
    calc_segment_cost_crowded 1 w_cex 20 100 line_cex
      < calc_segment_cost_crowded 1 w_cex 10 100 line_cex := by
  norm_num [calc_segment_cost_crowded, crowded_cost, normalized_crowded_cost,
    seated_pax, standing_pax, w_cex, line_cex, min_def, max_def]

lemma rules_override_level (ehs : String) (b : Bool) (jl : JourneyLevel) :
    (override_level ehs b jl).transition_rules = jl.transition_rules := by
  cases b <;> rfl

lemma rules_apply_fare_perception (fp : ℚ) (jl : JourneyLevel) :
    (apply_fare_perception fp jl).transition_rules = jl.transition_rules := by
  rcases h : jl.boarding_cost with _ | bc <;> simp [apply_fare_perception, h]

lemma desc_override_level (ehs : String) (b : Bool) (jl : JourneyLevel) :
    (override_level ehs b jl).description = jl.description := by
  cases b <;> rfl

lemma desc_apply_fare_perception (fp : ℚ) (jl : JourneyLevel) :
    (apply_fare_perception fp jl).description = jl.description := by
  rcases h : jl.boarding_cost with _ | bc <;> simp [apply_fare_perception, h]

lemma length_apply_inner_overrides (ehs : String) (lo hi : ℕ) :
    ∀ (i : ℕ) (l : List JourneyLevel),
      (apply_inner_overrides ehs lo hi i l).length = l.length := by
  intro i l
  induction l generalizing i with
  | nil => rfl
  | cons a t ih => simp [apply_inner_overrides, ih]

lemma rules_map_apply_inner_overrides (ehs : String) (lo hi : ℕ) :
    ∀ (i : ℕ) (l : List JourneyLevel),
      (apply_inner_overrides ehs lo hi i l).map (fun jl => jl.transition_rules)
        = l.map fun jl => jl.transition_rules := by
  intro i l
  induction l generalizing i with
  | nil => rfl
  | cons a t ih => simp [apply_inner_overrides, rules_override_level, ih]

lemma rules_map_result (fp : ℚ) (ehs : String) (lo hi : ℕ) (l : List JourneyLevel) :
    ((apply_inner_overrides ehs lo hi 0 l).map (apply_fare_perception fp)).map
        (fun jl => jl.transition_rules)
      = l.map fun jl => jl.transition_rules := by
  rw [List.map_map]
  have h1 : ((apply_inner_overrides ehs lo hi 0 l).map
        ((fun jl => jl.transition_rules) ∘ apply_fare_perception fp))
      = (apply_inner_overrides ehs lo hi 0 l).map fun jl => jl.transition_rules :=
    List.map_congr_left fun jl _ => rules_apply_fare_perception fp jl
  rw [h1, rules_map_apply_inner_overrides]

lemma forall_rules_of_map_eq {A B : List JourneyLevel}
    (h : A.map (fun jl => jl.transition_rules) = B.map fun jl => jl.transition_rules)
    {P : TransitionRule → Prop}
    (hB : ∀ jl ∈ B, ∀ r ∈ jl.transition_rules, P r) :
    ∀ jl ∈ A, ∀ r ∈ jl.transition_rules, P r := by
  intro jl hjl r hr
  have hm : jl.transition_rules ∈ A.map fun jl => jl.transition_rules :=
    List.mem_map_of_mem _ hjl
  rw [h] at hm
  obtain ⟨jl2, hjl2, he⟩ := List.mem_map.mp hm
  exact hB jl2 hjl2 r (by rw [he]; exact hr)

lemma mem_set_rule_targets {t : ℕ} {l : List TransitionRule} {r : TransitionRule}
    (h : r ∈ set_rule_targets t l) : r.next_journey_level = t := by
  simp only [set_rule_targets, List.mem_map] at h
  obtain ⟨r0, _, he⟩ := h
  rw [← he]

lemma next_lt_of_mem_quad {r : TransitionRule} {m1 m2 m3 m4 : String} {a b c d bound : ℕ}
    (h : r ∈ [(⟨m1, a⟩ : TransitionRule), ⟨m2, b⟩, ⟨m3, c⟩, ⟨m4, d⟩])
    (ha : a < bound) (hb : b < bound) (hc : c < bound) (hd : d < bound) :
    r.next_journey_level < bound := by
  simp only [List.mem_cons, List.not_mem_nil, or_false] at h
  rcases h with rfl | rfl | rfl | rfl
  · exact ha
  · exact hb
  · exact hc
  · exact hd

lemma next_eq_of_mem_quad {r : TransitionRule} {m1 m2 m3 m4 : String} {t : ℕ}
    (h : r ∈ [(⟨m1, t⟩ : TransitionRule), ⟨m2, t⟩, ⟨m3, t⟩, ⟨m4, t⟩]) :
    r.next_journey_level = t := by
  simp only [List.mem_cons, List.not_mem_nil, or_false] at h
  rcases h with rfl | rfl | rfl | rfl <;> rfl

lemma pnr_prohibit_rules_eq {n : ℕ} {base0 : List TransitionRule} {r : TransitionRule}
    (h : r ∈ (pnr_prohibit_level n base0).transition_rules) :
    r.next_journey_level = n + 2 := by
  simp only [pnr_prohibit_level, List.mem_append] at h
  rcases h with h | h
  · exact mem_set_rule_targets h
  · exact next_eq_of_mem_quad h

lemma wlk_prohibit_rules_eq {n : ℕ} {base0 : List TransitionRule} {r : TransitionRule}
    (h : r ∈ (wlk_prohibit_level n base0).transition_rules) :
    r.next_journey_level = n + 2 := by
  simp only [wlk_prohibit_level, List.mem_append] at h
  rcases h with h | h
  · exact mem_set_rule_targets h
  · exact next_eq_of_mem_quad h

lemma length_pnr_shift_levels (n : ℕ) :
    ∀ (i : ℕ) (l : List JourneyLevel), (pnr_shift_levels n i l).length = l.length := by
  intro i l
  induction l generalizing i with
  | nil => rfl
  | cons a t ih => simp [pnr_shift_levels, ih]

lemma length_wlk_base_levels (n : ℕ) :
    ∀ (i : ℕ) (l : List JourneyLevel), (wlk_base_levels n i l).length = l.length := by
  intro i l
  induction l generalizing i with
  | nil => rfl
  | cons a t ih => simp [wlk_base_levels, ih]

lemma pnr_shift_levels_rules_lt (n : ℕ) :
    ∀ (l : List JourneyLevel) (i : ℕ),
      (∀ jl ∈ l, ∀ r ∈ jl.transition_rules, r.next_journey_level < n) →
      i + l.length ≤ n →
      ∀ jl ∈ pnr_shift_levels n i l, ∀ r ∈ jl.transition_rules,
        r.next_journey_level < n + 3 := by
  intro l
  induction l with
  | nil => intro i _ _ jl hjl; simp [pnr_shift_levels] at hjl
  | cons a t ih =>
      intro i hvalid hlen jl hjl
      simp only [List.length_cons] at hlen
      simp only [pnr_shift_levels, List.mem_cons] at hjl
      rcases hjl with h | h
      · subst h
        intro r hr
        simp only [List.mem_append] at hr
        rcases hr with hr | hr
        · simp only [shift_rule_targets, List.mem_map] at hr
          obtain ⟨r0, hr0, he⟩ := hr
          have hlt : r0.next_journey_level < n :=
            hvalid a (List.mem_cons_self a t) r0 hr0
          rw [← he]
          show r0.next_journey_level + 1 < n + 3
          omega
        · exact next_lt_of_mem_quad hr (by omega) (by omega) (by omega) (by omega)
      · exact ih (i + 1)
          (fun jl2 hjl2 => hvalid jl2 (List.mem_cons_of_mem a hjl2))
          (by omega) jl h

lemma wlk_base_levels_rules_lt (n : ℕ) :
    ∀ (l : List JourneyLevel) (i : ℕ),
      (∀ jl ∈ l, ∀ r ∈ jl.transition_rules, r.next_journey_level < n) →
      i + l.length ≤ n →
      ∀ jl ∈ wlk_base_levels n i l, ∀ r ∈ jl.transition_rules,
        r.next_journey_level < n + 3 := by
  intro l
  induction l with
  | nil => intro i _ _ jl hjl; simp [wlk_base_levels] at hjl
  | cons a t ih =>
      intro i hvalid hlen jl hjl
      simp only [List.length_cons] at hlen
      simp only [wlk_base_levels, List.mem_cons] at hjl
      rcases hjl with h | h
      · subst h
        intro r hr
        simp only [List.mem_append] at hr
        rcases hr with hr | hr
        · have hlt : r.next_journey_level < n :=
            hvalid a (List.mem_cons_self a t) r hr
          omega
        · exact next_lt_of_mem_quad hr (by omega) (by omega) (by omega) (by omega)
      · exact ih (i + 1)
          (fun jl2 hjl2 => hvalid jl2 (List.mem_cons_of_mem a hjl2))
          (by omega) jl h

lemma getLastD_rules_map (fp : ℚ) (ehs : String) (lo hi : ℕ) :
    ∀ (l : List JourneyLevel) (i : ℕ),
      (((apply_inner_overrides ehs lo hi i l).map (apply_fare_perception fp)).getLastD
          default).transition_rules
        = (l.getLastD default).transition_rules := by
  intro l
  induction l with
  | nil => intro i; rfl
  | cons a t ih =>
      intro i
      cases t with
      | nil =>
          simp [apply_inner_overrides, rules_apply_fare_perception, rules_override_level]
      | cons b t2 =>
          have h1 := ih (i + 1)
          simp only [apply_inner_overrides, List.map_cons,
            List.getLastD_eq_getLast?, List.getLast?_cons_cons] at h1 ⊢
          exact h1

lemma getLastD_concat_two (y z : JourneyLevel) (S : List JourneyLevel) :
    (S ++ [y, z]).getLastD default = z := by
  rw [show S ++ [y, z] = (S ++ [y]) ++ [z] by simp, List.getLastD_concat]

lemma pnr_trn_wlk_length (fp : ℚ) (ehs : String) (jls : List JourneyLevel) :
    (pnr_trn_wlk_journey_levels fp ehs jls).length = jls.length + 3 := by
  simp only [pnr_trn_wlk_journey_levels]
  rw [List.length_map, length_apply_inner_overrides]
  simp [length_pnr_shift_levels]

lemma wlk_trn_pnr_length (fp : ℚ) (ehs : String) (jls : List JourneyLevel) :
    (wlk_trn_pnr_journey_levels fp ehs jls).length = jls.length + 3 := by
  simp only [wlk_trn_pnr_journey_levels]
  rw [List.length_map, length_apply_inner_overrides]
  simp [length_wlk_base_levels]

lemma pnr_trap_rules_aux (fp : ℚ) (ehs : String) (jls : List JourneyLevel) :
    ((pnr_trn_wlk_journey_levels fp ehs jls).getLastD default).transition_rules
      = (pnr_prohibit_level jls.length
          ((jls.headD default).transition_rules)).transition_rules := by
  simp only [pnr_trn_wlk_journey_levels]
  rw [getLastD_rules_map, List.getLastD_concat]

lemma wlk_trap_rules_aux (fp : ℚ) (ehs : String) (jls : List JourneyLevel) :
    ((wlk_trn_pnr_journey_levels fp ehs jls).getLastD default).transition_rules
      = (wlk_prohibit_level jls.length
          ((jls.headD default).transition_rules)).transition_rules := by
  simp only [wlk_trn_pnr_journey_levels]
  rw [getLastD_rules_map, getLastD_concat_two]

lemma pnr_levels_rules_lt (jls : List JourneyLevel)
    (hvalid : ∀ jl ∈ jls, ∀ r ∈ jl.transition_rules, r.next_journey_level < jls.length) :
    ∀ jl ∈ (pnr_drive_access_level jls.length ((jls.headD default).transition_rules) ::
        pnr_pnr_level jls.length ((jls.headD default).transition_rules) ::
        pnr_shift_levels jls.length 0 jls ++
          [pnr_prohibit_level jls.length ((jls.headD default).transition_rules)]),
      ∀ r ∈ jl.transition_rules, r.next_journey_level < jls.length + 3 := by
  intro jl hjl
  simp only [List.mem_cons, List.mem_append, List.mem_singleton,
    List.not_mem_nil, or_false] at hjl
  rcases hjl with (h | h | h) | h
  · subst h
    intro r hr
    simp only [pnr_drive_access_level, List.mem_append] at hr
    rcases hr with hr | hr
    · have := mem_set_rule_targets hr; omega
    · exact next_lt_of_mem_quad hr (by omega) (by omega) (by omega) (by omega)
  · subst h
    intro r hr
    simp only [pnr_pnr_level, List.mem_append] at hr
    rcases hr with hr | hr
    · have := mem_set_rule_targets hr; omega
    · exact next_lt_of_mem_quad hr (by omega) (by omega) (by omega) (by omega)
  · exact pnr_shift_levels_rules_lt jls.length jls 0 hvalid (by omega) jl h
  · subst h
    intro r hr
    have := pnr_prohibit_rules_eq hr
    omega

lemma wlk_levels_rules_lt (jls : List JourneyLevel)
    (hvalid : ∀ jl ∈ jls, ∀ r ∈ jl.transition_rules, r.next_journey_level < jls.length) :
    ∀ jl ∈ (wlk_walk_access_level jls.length ((jls.headD default).transition_rules) ::
        wlk_base_levels jls.length 0 jls ++
          [wlk_drive_home_level jls.length ((jls.headD default).transition_rules),
           wlk_prohibit_level jls.length ((jls.headD default).transition_rules)]),
      ∀ r ∈ jl.transition_rules, r.next_journey_level < jls.length + 3 := by
  intro jl hjl
  simp only [List.mem_cons, List.mem_append, List.mem_singleton,
    List.not_mem_nil, or_false] at hjl
  rcases hjl with (h | h) | (h | h)
  · subst h
    intro r hr
    simp only [wlk_walk_access_level, List.mem_append] at hr
    rcases hr with hr | hr
    · have := mem_set_rule_targets hr; omega
    · exact next_lt_of_mem_quad hr (by omega) (by omega) (by omega) (by omega)
  · exact wlk_base_levels_rules_lt jls.length jls 0 hvalid (by omega) jl h
  · subst h
    intro r hr
    simp only [wlk_drive_home_level, List.mem_append] at hr
    rcases hr with hr | hr
    · have := mem_set_rule_targets hr; omega
    · exact next_lt_of_mem_quad hr (by omega) (by omega) (by omega) (by omega)
  · subst h
    intro r hr
    have := wlk_prohibit_rules_eq hr
    omega

/-- Claim C9: in the automata generated by the fare-based PNR_TRN_WLK and
WLK_TRN_PNR builders from a valid baseline, every rule of the trailing prohibit
(trap) level points to the trap level's own index (the last index of the final
level list), and every rule of every level targets a valid index of the final
level list. -/
theorem journey_levels_valid (fp : ℚ) (ehs : String) (jls : List JourneyLevel)
    (hvalid : ∀ jl ∈ jls, ∀ r ∈ jl.transition_rules, r.next_journey_level < jls.length) :
    (∀ r ∈ ((pnr_trn_wlk_journey_levels fp ehs jls).getLastD default).transition_rules,
        r.next_journey_level = (pnr_trn_wlk_journey_levels fp ehs jls).length - 1) ∧
      (∀ jl ∈ pnr_trn_wlk_journey_levels fp ehs jls, ∀ r ∈ jl.transition_rules,
        r.next_journey_level < (pnr_trn_wlk_journey_levels fp ehs jls).length) ∧
      (∀ r ∈ ((wlk_trn_pnr_journey_levels fp ehs jls).getLastD default).transition_rules,
        r.next_journey_level = (wlk_trn_pnr_journey_levels fp ehs jls).length - 1) ∧
      (∀ jl ∈ wlk_trn_pnr_journey_levels fp ehs jls, ∀ r ∈ jl.transition_rules,
        r.next_journey_level < (wlk_trn_pnr_journey_levels fp ehs jls).length) := by
  refine ⟨?_, ?_, ?_, ?_⟩
  · intro r hr
    rw [pnr_trap_rules_aux] at hr
    rw [pnr_trn_wlk_length]
    have := pnr_prohibit_rules_eq hr
    omega
  · rw [pnr_trn_wlk_length]
    exact forall_rules_of_map_eq
      (by simp only [pnr_trn_wlk_journey_levels]; exact rules_map_result fp ehs _ _ _)
      (pnr_levels_rules_lt jls hvalid)
  · intro r hr
    rw [wlk_trap_rules_aux] at hr
    rw [wlk_trn_pnr_length]
    have := wlk_prohibit_rules_eq hr
    omega
  · rw [wlk_trn_pnr_length]
    exact forall_rules_of_map_eq
      (by simp only [wlk_trn_pnr_journey_levels]; exact rules_map_result fp ehs _ _ _)
      (wlk_levels_rules_lt jls hvalid)

/-- Witness for claim C9 on the concrete two-level baseline. -/
theorem journey_levels_valid_witness :
    (∀ r ∈ ((pnr_trn_wlk_journey_levels 1 "AVERAGE" base2).getLastD default).transition_rules,
        r.next_journey_level = (pnr_trn_wlk_journey_levels 1 "AVERAGE" base2).length - 1) ∧
      (∀ jl ∈ pnr_trn_wlk_journey_levels 1 "AVERAGE" base2, ∀ r ∈ jl.transition_rules,
        r.next_journey_level < (pnr_trn_wlk_journey_levels 1 "AVERAGE" base2).length) ∧
      (∀ r ∈ ((wlk_trn_pnr_journey_levels 1 "AVERAGE" base2).getLastD default).transition_rules,
        r.next_journey_level = (wlk_trn_pnr_journey_levels 1 "AVERAGE" base2).length - 1) ∧
      (∀ jl ∈ wlk_trn_pnr_journey_levels 1 "AVERAGE" base2, ∀ r ∈ jl.transition_rules,
        r.next_journey_level < (wlk_trn_pnr_journey_levels 1 "AVERAGE" base2).length) :=
  journey_levels_valid 1 "AVERAGE" base2 (by decide)

lemma getLastD_desc_map (fp : ℚ) (ehs : String) (lo hi : ℕ) :
    ∀ (l : List JourneyLevel) (i : ℕ),
      (((apply_inner_overrides ehs lo hi i l).map (apply_fare_perception fp)).getLastD
          default).description = (l.getLastD default).description := by
  intro l
  induction l with
  | nil => intro i; rfl
  | cons a t ih =>
      intro i
      cases t with
      | nil =>
          simp [apply_inner_overrides, desc_apply_fare_perception, desc_override_level]
      | cons b t2 =>
          have h1 := ih (i + 1)
          simp only [apply_inner_overrides, List.map_cons,
            List.getLastD_eq_getLast?, List.getLast?_cons_cons] at h1 ⊢
          exact h1

lemma pnr_level0_rules (fp : ℚ) (ehs : String) (jls : List JourneyLevel) :
    ((pnr_trn_wlk_journey_levels fp ehs jls).headD default).transition_rules
      = (pnr_drive_access_level jls.length
          ((jls.headD default).transition_rules)).transition_rules := by
  simp only [pnr_trn_wlk_journey_levels, List.cons_append, apply_inner_overrides,
    List.map_cons, List.headD_cons, rules_apply_fare_perception, rules_override_level]

lemma pnr_level0_desc (fp : ℚ) (ehs : String) (jls : List JourneyLevel) :
    ((pnr_trn_wlk_journey_levels fp ehs jls).headD default).description
      = "drive access" := by
  simp only [pnr_trn_wlk_journey_levels, List.cons_append, apply_inner_overrides,
    List.map_cons, List.headD_cons, desc_apply_fare_perception, desc_override_level]
  rfl

lemma pnr_last_desc (fp : ℚ) (ehs : String) (jls : List JourneyLevel) :
    ((pnr_trn_wlk_journey_levels fp ehs jls).getLastD default).description
      = "prohibit" := by
  simp only [pnr_trn_wlk_journey_levels]
  rw [getLastD_desc_map, List.getLastD_concat]
  rfl

lemma filter_ne_set_rule_targets (t : ℕ) (l : List TransitionRule) :
    (set_rule_targets t l).filter (fun r => r.next_journey_level ≠ t) = [] := by
  rw [List.filter_eq_nil_iff]
  intro r hr
  simp [mem_set_rule_targets hr]

lemma filter_not_eq_set_rule_targets (t : ℕ) (l : List TransitionRule) :
    (set_rule_targets t l).filter (fun r => !decide (r.next_journey_level = t)) = [] := by
  rw [List.filter_eq_nil_iff]
  intro r hr
  simp [mem_set_rule_targets hr]

/-- Claim C3 (amended): a PNR_TRN_WLK class built from a 2-level walk-access
baseline yields a 5-level automaton whose level 0 is the drive-access level and
whose trailing level is the prohibit trap; the drive-access level has exactly
two transition rules whose target is not the trap level 4: the drive mode D
rule staying at level 0 and the pnr mode p rule pointing to level 1 (every
other rule targets the trap). -/
theorem pnr_five_levels (fp : ℚ) (ehs : String) (jls : List JourneyLevel)
    (h2 : jls.length = 2) :
    (pnr_trn_wlk_journey_levels fp ehs jls).length = 5 ∧
      ((pnr_trn_wlk_journey_levels fp ehs jls).headD default).description
        = "drive access" ∧
      ((pnr_trn_wlk_journey_levels fp ehs jls).getLastD default).description
        = "prohibit" ∧
      ((pnr_trn_wlk_journey_levels fp ehs jls).headD default).transition_rules.filter
          (fun r => r.next_journey_level ≠ 4)
        = [⟨"D", 0⟩, ⟨"p", 1⟩] := by
  refine ⟨by rw [pnr_trn_wlk_length, h2], pnr_level0_desc fp ehs jls,
    pnr_last_desc fp ehs jls, ?_⟩
  rw [pnr_level0_rules, h2]
  simp only [pnr_drive_access_level]
  norm_num [List.filter_append, List.filter_cons]
  intro r hr
  exact mem_set_rule_targets hr

/-- Witness for claim C3 on the concrete two-level baseline. -/
theorem pnr_five_levels_witness :
    (pnr_trn_wlk_journey_levels 1 "AVERAGE" base2).length = 5 ∧
      ((pnr_trn_wlk_journey_levels 1 "AVERAGE" base2).headD default).description
        = "drive access" ∧
      ((pnr_trn_wlk_journey_levels 1 "AVERAGE" base2).getLastD default).description
        = "prohibit" ∧
      ((pnr_trn_wlk_journey_levels 1 "AVERAGE" base2).headD
            default).transition_rules.filter
          (fun r => r.next_journey_level ≠ 4)
        = [⟨"D", 0⟩, ⟨"p", 1⟩] :=
  pnr_five_levels 1 "AVERAGE" base2 rfl

/-- Claim C3 counterexample: on the concrete two-level baseline the built
automaton does have 5 levels, but the drive-access level has two rules whose
target is not the trap level 4 (mode D to level 0 and mode p to level 1), so
the claim that it has exactly one such rule is false. -/
theorem pnr_level0_claim_false :
    ¬ ((pnr_trn_wlk_journey_levels 1 "AVERAGE" base2).length = 5 ∧
        (((pnr_trn_wlk_journey_levels 1 "AVERAGE" base2).headD
              default).transition_rules.filter
            (fun r => r.next_journey_level ≠ 4)).length = 1) := by
  intro h
  have hf := h.2
  rw [pnr_level0_rules] at hf
  have hb2 : base2.length = 2 := rfl
  rw [hb2] at hf
  simp only [pnr_drive_access_level] at hf
  norm_num [List.filter_append, List.filter_cons] at hf
  rw [filter_not_eq_set_rule_targets] at hf
  norm_num at hf
